import Mathlib

/-!
Verification of the CSV-analysis statistics engine, tool layer, dataset cache
and request router of this repository, shallowly embedded in Lean.

Numbers: the Python code computes with IEEE doubles; the embedding uses exact
rationals.  All concrete inputs used below are chosen far from representation
or rounding edge cases, so the rational results coincide with the float ones.
NaN is modelled explicitly where it can arise (missing cells, correlation of a
constant column, a zero standard deviation): an `Option` whose `none` is NaN,
since IEEE comparisons on NaN are all false.
-/

namespace CsvSpec

/-! ## Python rounding

Python's built-in `round(x, n)` rounds to `n` decimal digits, ties to even
(banker's rounding).  `qfloor` is the mathematical floor, written out so that
it is executable on rationals. -/

/-- Round a rational to the nearest integer, ties to even: the behaviour of
Python's built-in `round` on floats (for values away from representation
edges).  The fractional part `x - ⌊x⌋` is compared with `1/2` after scaling
both sides by 2, keeping the conditions floor-plus-arithmetic only. -/
def roundHalfEven (x : ℚ) : ℤ :=
  if 2 * x < 2 * ⌊x⌋ + 1 then ⌊x⌋
  else if 2 * ⌊x⌋ + 1 < 2 * x then ⌊x⌋ + 1
  else if 2 ∣ ⌊x⌋ then ⌊x⌋ else ⌊x⌋ + 1

/-- Python `round(x, n)`: scale by `10 ^ n`, round half to even, scale back. -/
def pyRound (x : ℚ) (n : ℕ) : ℚ := (roundHalfEven (x * 10 ^ n) : ℚ) / 10 ^ n

/-! ## Column statistics primitives

`pandas` summary statistics on a column, after dropping missing values.
Sorting is by insertion (any comparison sort agrees on rational values);
`quantileND` is the linear-interpolation quantile that `numpy`/`pandas`
compute: at fraction `num/den` of the way through the sorted data, the
interpolation point is `h = (num/den) * (length - 1)`, split below into its
integer part `qIndex` and fractional part `qFrac` using exact natural-number
arithmetic. -/

/-- Sum of a list of rationals (pandas `Series.sum`). -/
def sumQ (xs : List ℚ) : ℚ := xs.sum

/-- Arithmetic mean (pandas `Series.mean`); only ever applied to nonempty
data in the tools below. -/
def meanQ (xs : List ℚ) : ℚ := sumQ xs / xs.length

/-- Sample variance with one delta degree of freedom, the square of pandas
`Series.std()`.  For fewer than two values pandas returns NaN, modelled as
`none`. -/
def sampleVar (xs : List ℚ) : Option ℚ :=
  if xs.length ≤ 1 then none
  else some ((xs.map (fun x => (x - meanQ xs) ^ 2)).sum / ((xs.length : ℚ) - 1))

/-- Ascending sort of the column data, as pandas quantile computation sorts
internally. -/
def sortQ (xs : List ℚ) : List ℚ := xs.insertionSort (· ≤ ·)

/-- Element of a sorted list at position `i`, clamped to the last position
(used only at interpolation indices, which stay in range). -/
def nthS (xs : List ℚ) (i : ℕ) : ℚ := xs.getD (min i (xs.length - 1)) 0

/-- Integer part of the interpolation point `(num/den) * (n - 1)` for a
column of length `n`. -/
def qIndex (num den n : ℕ) : ℕ := num * (n - 1) / den

/-- Fractional part of the interpolation point, as a rational. -/
def qFrac (num den n : ℕ) : ℚ := ((num * (n - 1) % den : ℕ) : ℚ) / (den : ℚ)

/-- Linear-interpolation quantile at fraction `num / den` (numpy default, the
method behind pandas `Series.quantile` and `Series.median`). -/
def quantileND (xs : List ℚ) (num den : ℕ) : ℚ :=
  nthS (sortQ xs) (qIndex num den (sortQ xs).length)
    + qFrac num den (sortQ xs).length
      * (nthS (sortQ xs) (qIndex num den (sortQ xs).length + 1)
          - nthS (sortQ xs) (qIndex num den (sortQ xs).length))

/-- Minimum of a column (pandas `Series.min`); 0 on empty data, which the
tools never reach. -/
def listMin : List ℚ → ℚ
  | [] => 0
  | x :: xs => xs.foldl min x

/-- Maximum of a column (pandas `Series.max`). -/
def listMax : List ℚ → ℚ
  | [] => 0
  | x :: xs => xs.foldl max x

theorem sortQ_sorted (xs : List ℚ) : (sortQ xs).Sorted (· ≤ ·) :=
  List.sorted_insertionSort (· ≤ ·) xs

theorem sortQ_perm (xs : List ℚ) : (sortQ xs).Perm xs :=
  List.perm_insertionSort (· ≤ ·) xs

theorem sortQ_length (xs : List ℚ) : (sortQ xs).length = xs.length :=
  (sortQ_perm xs).length_eq

theorem nthS_mono (s : List ℚ) (hs : s.Sorted (· ≤ ·)) {i j : ℕ} (hij : i ≤ j) :
    nthS s i ≤ nthS s j := by
  rcases s with _ | ⟨x, rest⟩
  · simp [nthS]
  · set t := x :: rest with ht
    have hlen : 0 < t.length := by simp [ht]
    have hci : min i (t.length - 1) < t.length := by omega
    have hcj : min j (t.length - 1) < t.length := by omega
    have hle : min i (t.length - 1) ≤ min j (t.length - 1) := by omega
    unfold nthS
    rw [List.getD_eq_getElem t 0 hci, List.getD_eq_getElem t 0 hcj]
    rcases lt_or_eq_of_le hle with hlt | heq
    · have hrel := List.Sorted.rel_get_of_lt hs
        (a := ⟨min i (t.length - 1), hci⟩) (b := ⟨min j (t.length - 1), hcj⟩)
        (Fin.mk_lt_mk.mpr hlt)
      simpa [List.get_eq_getElem] using hrel
    · simp [heq]

theorem nthS_mem (s : List ℚ) (hne : s ≠ []) (i : ℕ) : nthS s i ∈ s := by
  have hlen : 0 < s.length := List.length_pos.mpr hne
  have hci : min i (s.length - 1) < s.length := by omega
  unfold nthS
  rw [List.getD_eq_getElem s 0 hci]
  exact List.getElem_mem hci

theorem quantileND_mono (xs : List ℚ) {den : ℕ} (hden : 0 < den) {n1 n2 : ℕ}
    (h12 : n1 ≤ n2) : quantileND xs n1 den ≤ quantileND xs n2 den := by
  unfold quantileND
  set s := sortQ xs with hsdef
  have hs : s.Sorted (· ≤ ·) := sortQ_sorted xs
  set L := s.length with hL
  have hi12 : qIndex n1 den L ≤ qIndex n2 den L :=
    Nat.div_le_div_right (Nat.mul_le_mul_right (L - 1) h12)
  have hr1 : n1 * (L - 1) % den < den := Nat.mod_lt _ hden
  have hg1nn : (0 : ℚ) ≤ qFrac n1 den L := by unfold qFrac; positivity
  have hg2nn : (0 : ℚ) ≤ qFrac n2 den L := by unfold qFrac; positivity
  have hg1le : qFrac n1 den L ≤ 1 := by
    unfold qFrac
    rw [div_le_one (by exact_mod_cast hden)]
    exact_mod_cast le_of_lt hr1
  have hd1 : nthS s (qIndex n1 den L) ≤ nthS s (qIndex n1 den L + 1) :=
    nthS_mono s hs (by omega)
  have hd2 : nthS s (qIndex n2 den L) ≤ nthS s (qIndex n2 den L + 1) :=
    nthS_mono s hs (by omega)
  rcases lt_or_eq_of_le hi12 with hlt | heq
  · have step1 : nthS s (qIndex n1 den L)
        + qFrac n1 den L * (nthS s (qIndex n1 den L + 1) - nthS s (qIndex n1 den L))
        ≤ nthS s (qIndex n1 den L + 1) := by nlinarith
    have step2 : nthS s (qIndex n1 den L + 1) ≤ nthS s (qIndex n2 den L) :=
      nthS_mono s hs (by omega)
    have step3 : nthS s (qIndex n2 den L)
        ≤ nthS s (qIndex n2 den L)
          + qFrac n2 den L * (nthS s (qIndex n2 den L + 1) - nthS s (qIndex n2 den L)) := by
      nlinarith
    linarith
  · have hqeq : n1 * (L - 1) / den = n2 * (L - 1) / den := heq
    have hreq : n1 * (L - 1) % den ≤ n2 * (L - 1) % den := by
      have e1 := Nat.div_add_mod (n1 * (L - 1)) den
      have e2 := Nat.div_add_mod (n2 * (L - 1)) den
      have hmul : n1 * (L - 1) ≤ n2 * (L - 1) := Nat.mul_le_mul_right (L - 1) h12
      rw [hqeq] at e1
      omega
    have hgg : qFrac n1 den L ≤ qFrac n2 den L := by
      unfold qFrac
      have hcast : ((n1 * (L - 1) % den : ℕ) : ℚ) ≤ ((n2 * (L - 1) % den : ℕ) : ℚ) := by
        exact_mod_cast hreq
      have hdpos : (0 : ℚ) < (den : ℚ) := by exact_mod_cast hden
      gcongr
    rw [heq]
    nlinarith [hd2]

theorem quantileND_zero (xs : List ℚ) (den : ℕ) :
    quantileND xs 0 den = nthS (sortQ xs) 0 := by
  unfold quantileND qIndex qFrac
  simp

theorem quantileND_full (xs : List ℚ) {den : ℕ} (hden : 0 < den) :
    quantileND xs den den = nthS (sortQ xs) ((sortQ xs).length - 1) := by
  unfold quantileND qIndex qFrac
  have h1 : den * ((sortQ xs).length - 1) / den = (sortQ xs).length - 1 :=
    Nat.mul_div_cancel_left _ hden
  have h2 : den * ((sortQ xs).length - 1) % den = 0 := Nat.mul_mod_right den _
  rw [h1, h2]
  simp

theorem foldl_min_le (xs : List ℚ) (a : ℚ) :
    xs.foldl min a ≤ a ∧ ∀ x ∈ xs, xs.foldl min a ≤ x := by
  induction xs generalizing a with
  | nil => simp
  | cons y ys ih =>
    have h := ih (min a y)
    refine ⟨le_trans h.1 (min_le_left a y), ?_⟩
    intro x hx
    rcases List.mem_cons.mp hx with rfl | hx
    · exact le_trans h.1 (min_le_right a x)
    · exact h.2 x hx

theorem foldl_max_le (xs : List ℚ) (a : ℚ) :
    a ≤ xs.foldl max a ∧ ∀ x ∈ xs, x ≤ xs.foldl max a := by
  induction xs generalizing a with
  | nil => simp
  | cons y ys ih =>
    have h := ih (max a y)
    refine ⟨le_trans (le_max_left a y) h.1, ?_⟩
    intro x hx
    rcases List.mem_cons.mp hx with rfl | hx
    · exact le_trans (le_max_right a x) h.1
    · exact h.2 x hx

theorem listMin_le {xs : List ℚ} {x : ℚ} (hx : x ∈ xs) : listMin xs ≤ x := by
  rcases xs with _ | ⟨y, rest⟩
  · simp at hx
  · rcases List.mem_cons.mp hx with rfl | hm
    · exact (foldl_min_le rest x).1
    · exact (foldl_min_le rest y).2 x hm

theorem le_listMax {xs : List ℚ} {x : ℚ} (hx : x ∈ xs) : x ≤ listMax xs := by
  rcases xs with _ | ⟨y, rest⟩
  · simp at hx
  · rcases List.mem_cons.mp hx with rfl | hm
    · exact (foldl_max_le rest x).1
    · exact (foldl_max_le rest y).2 x hm

theorem listMin_le_quantile (xs : List ℚ) (h : xs ≠ []) {num den : ℕ}
    (hden : 0 < den) : listMin xs ≤ quantileND xs num den := by
  have hne : sortQ xs ≠ [] := by
    intro hc
    exact h (List.eq_nil_of_length_eq_zero (by rw [← sortQ_length xs, hc]; rfl))
  have h0 : listMin xs ≤ nthS (sortQ xs) 0 :=
    listMin_le ((sortQ_perm xs).mem_iff.mp (nthS_mem _ hne 0))
  calc listMin xs ≤ nthS (sortQ xs) 0 := h0
    _ = quantileND xs 0 den := (quantileND_zero xs den).symm
    _ ≤ quantileND xs num den := quantileND_mono xs hden (Nat.zero_le num)

theorem quantile_le_listMax (xs : List ℚ) (h : xs ≠ []) {num den : ℕ}
    (hden : 0 < den) (hnum : num ≤ den) : quantileND xs num den ≤ listMax xs := by
  have hne : sortQ xs ≠ [] := by
    intro hc
    exact h (List.eq_nil_of_length_eq_zero (by rw [← sortQ_length xs, hc]; rfl))
  have h0 : nthS (sortQ xs) ((sortQ xs).length - 1) ≤ listMax xs :=
    le_listMax ((sortQ_perm xs).mem_iff.mp (nthS_mem _ hne _))
  calc quantileND xs num den ≤ quantileND xs den den := quantileND_mono xs hden hnum
    _ = nthS (sortQ xs) ((sortQ xs).length - 1) := quantileND_full xs hden
    _ ≤ listMax xs := h0

theorem mean_const {xs : List ℚ} {c : ℚ} (hne : xs ≠ []) (hc : ∀ x ∈ xs, x = c) :
    meanQ xs = c := by
  have hsum : sumQ xs = c * xs.length := by
    unfold sumQ
    induction xs with
    | nil => simp
    | cons y ys ih =>
      have hy : y = c := hc y (List.mem_cons_self y ys)
      rcases ys with _ | ⟨z, zs⟩
      · simp [hy]
      · have hrec := ih (by simp) (fun x hx => hc x (List.mem_cons_of_mem y hx))
        rw [List.sum_cons, hrec, hy]
        simp only [List.length_cons]
        push_cast
        ring
  unfold meanQ
  rw [hsum]
  have hlen : (xs.length : ℚ) ≠ 0 :=
    Nat.cast_ne_zero.mpr (List.length_pos.mpr hne).ne'
  field_simp

/-! ## Data model

A loaded dataset is a table of named columns.  A column is numeric or text
(the two dtypes the analysed CSV files produce); a cell is `none` when the
value is missing (NaN).  `pandas.read_csv` outcomes are modelled by a `Disk`
assigning each filename its parse result. -/

/-- Column of a loaded table: dtype together with cells, `none` = missing. -/
inductive Col where
  | numeric (vals : List (Option ℚ))
  | text (vals : List (Option String))
deriving DecidableEq

/-- Number of cells of a column. -/
def colLen : Col → ℕ
  | .numeric vs => vs.length
  | .text vs => vs.length

/-- Result of `pandas.api.types.is_numeric_dtype` on the column. -/
def Col.isNumeric : Col → Bool
  | .numeric _ => true
  | .text _ => false

/-- Drop missing values from a numeric column (`Series.dropna`). -/
def dropna (vs : List (Option ℚ)) : List ℚ := vs.filterMap id

/-- A parsed CSV file: named columns in order.  Well-formed tables give every
column the same length; theorems that need this take it as a hypothesis. -/
structure Table where
  cols : List (String × Col)
deriving DecidableEq

/-- Column lookup by name (`df[column_name]`, names assumed unique as in a
parsed CSV header). -/
def lookupCol (t : Table) (c : String) : Option Col := t.cols.lookup c

/-- Row count of the table, `len(df)`: length of its first column. -/
def Table.nRows (t : Table) : ℕ :=
  match t.cols with
  | [] => 0
  | p :: _ => colLen p.2

/-- Result of `df.empty`: a table with no rows or no columns. -/
def Table.emptyDf (t : Table) : Bool := t.cols.isEmpty || t.nRows == 0

/-- Outcome of reading a file from the data directory. -/
inductive LoadResult where
  | missing
  | emptyFile
  | malformed
  | parsed (t : Table)

/-- The data directory: what `pandas.read_csv` yields per filename. -/
def Disk := String → LoadResult

/-- DataManager `_load_csv_safely`: existence check, parse, emptiness check;
every failure becomes a message that the calling tool catches. -/
def load_csv_safely (disk : Disk) (filename : String) : Except String Table :=
  match disk filename with
  | .missing => .error ("Dataset '" ++ filename ++ "' not found")
  | .emptyFile => .error ("Dataset '" ++ filename ++ "' contains no data")
  | .malformed => .error ("Dataset '" ++ filename ++ "' has invalid CSV format")
  | .parsed t =>
    if t.emptyDf then .error ("Dataset '" ++ filename ++ "' is empty") else .ok t

/-- DataManager `_validate_column_exists`. -/
def validate_column_exists (t : Table) (c : String) : Except String Unit :=
  match lookupCol t c with
  | some _ => .ok ()
  | none => .error ("Column '" ++ c ++ "' not found")

/-- DataManager `_validate_numeric_column` (existence check included). -/
def validate_numeric_column (t : Table) (c : String) : Except String Unit :=
  match lookupCol t c with
  | none => .error ("Column '" ++ c ++ "' not found")
  | some col =>
    if col.isNumeric then .ok ()
    else .error ("Column '" ++ c ++ "' is not numeric")

/-- Cells of a column known to be numeric (`df[column_name]` after the
numeric-dtype validation has passed). -/
def numVals (t : Table) (c : String) : List (Option ℚ) :=
  match lookupCol t c with
  | some (.numeric vs) => vs
  | _ => []

/-! ## calculate_column_statistics (tools.py)

The `std` entry of the Python result dict is `round(sqrt(sample variance), 2)`,
an irrational number in general; it is not representable in the rational
embedding and no claim refers to it, so the payload omits it. -/

/-- Success payload of `calculate_column_statistics`. -/
structure StatsPayload where
  column_name : String
  dataset : String
  count : ℕ
  mean : ℚ
  median : ℚ
  min : ℚ
  max : ℚ
  q25 : ℚ
  q75 : ℚ
  missing_values : ℕ
deriving DecidableEq

/-- Tool `calculate_column_statistics`: statistics of a numeric column, with
mean/median/q25/q75 rounded to 2 decimals and min/max unrounded, exactly as
in the source. -/
def calculate_column_statistics (disk : Disk) (filename column_name : String) :
    Except String StatsPayload :=
  match load_csv_safely disk filename with
  | .error e => .error e
  | .ok t =>
    match validate_numeric_column t column_name with
    | .error e => .error e
    | .ok _ =>
      let column_data := dropna (numVals t column_name)
      if column_data.length = 0 then
        .error ("No valid numeric data found in column '" ++ column_name ++ "'")
      else
        .ok { column_name := column_name
              dataset := filename
              count := column_data.length
              mean := pyRound (meanQ column_data) 2
              median := pyRound (quantileND column_data 2 4) 2
              min := listMin column_data
              max := listMax column_data
              q25 := pyRound (quantileND column_data 1 4) 2
              q75 := pyRound (quantileND column_data 3 4) 2
              missing_values := (numVals t column_name).countP (fun v => v.isNone) }

/-! ## count_rows_with_value (tools.py) -/

/-- Search value, `Union[str, int, float]` in the source. -/
inductive SearchVal where
  | str (s : String)
  | num (q : ℚ)
deriving DecidableEq

/-- Number of rows of the column equal to the search value, the length of
`df[df[column_name] == value]`.  A missing cell (NaN) compares unequal to
everything, and a value of the wrong dtype matches no cell (pandas elementwise
`==` between a number and a string is componentwise False). -/
def matchCount : Col → SearchVal → ℕ
  | .numeric vs, .num q => vs.countP (fun c => decide (c = some q))
  | .numeric _, .str _ => 0
  | .text vs, .str s => vs.countP (fun c => decide (c = some s))
  | .text _, .num _ => 0

/-- Success payload of `count_rows_with_value`. -/
structure CountPayload where
  dataset : String
  column_name : String
  search_value : SearchVal
  total_rows : ℕ
  matching_rows : ℕ
  percentage : ℚ
  non_matching_rows : ℕ
deriving DecidableEq

/-- Tool `count_rows_with_value`. -/
def count_rows_with_value (disk : Disk) (filename column_name : String)
    (value : SearchVal) : Except String CountPayload :=
  match load_csv_safely disk filename with
  | .error e => .error e
  | .ok t =>
    match validate_column_exists t column_name with
    | .error e => .error e
    | .ok _ =>
      let col := (lookupCol t column_name).getD (Col.text [])
      let total_rows := t.nRows
      let matching_rows := matchCount col value
      let percentage :=
        if total_rows > 0 then pyRound ((matching_rows : ℚ) / total_rows * 100) 2 else 0
      .ok { dataset := filename
            column_name := column_name
            search_value := value
            total_rows := total_rows
            matching_rows := matching_rows
            percentage := percentage
            non_matching_rows := total_rows - matching_rows }

/-! ## perform_data_aggregation (tools.py and the CSVAgent variant)

Grouping: pandas `groupby` partitions rows by the value of the group column,
dropping rows whose group key is missing; aggregations over each group skip
missing target cells.  The order pandas presents groups in (sorted keys by
default) is flagged as ambiguous in the repository's own documentation and no
claim refers to it, so groups appear here in the dedup order of first
occurrence scanning cells from the end. -/

/-- Group key: the value of the group-by column in a row. -/
inductive CellKey where
  | num (q : ℚ)
  | str (s : String)
deriving DecidableEq

/-- Key of row `i` of a column, `none` when the cell is missing. -/
def colKeyAt : Col → ℕ → Option CellKey
  | .numeric vs, i => (vs.getD i none).map CellKey.num
  | .text vs, i => (vs.getD i none).map CellKey.str

/-- Distinct non-missing keys of the group column. -/
def groupKeys (c : Col) : List CellKey :=
  ((List.range (colLen c)).filterMap (colKeyAt c)).dedup

/-- Size of the group of key `k`: what `grouped.size()` reports. -/
def groupSize (c : Col) (k : CellKey) : ℕ :=
  (List.range (colLen c)).countP (fun i => decide (colKeyAt c i = some k))

/-- Non-missing target values of the rows in the group of key `k`. -/
def groupVals (c : Col) (tvals : List (Option ℚ)) (k : CellKey) : List ℚ :=
  (List.range (colLen c)).filterMap
    (fun i => if colKeyAt c i = some k then tvals.getD i none else none)

/-- Numeric aggregation over one group's values: mean, sum, min, max or
median, dispatched on the operation name as the source dispatches on the
pandas aggregation name. -/
def aggOp (op : String) (vals : List ℚ) : ℚ :=
  if op = "mean" then meanQ vals
  else if op = "sum" then sumQ vals
  else if op = "min" then listMin vals
  else if op = "max" then listMax vals
  else quantileND vals 2 4

/-- Success payload of the aggregation tools: the per-group results, each
rounded to 2 decimals. -/
structure AggPayload where
  dataset : String
  group_by_column : String
  operation : String
  target_column : String
  total_groups : ℕ
  results : List (CellKey × ℚ)
deriving DecidableEq

/-- Tool `perform_data_aggregation` (tools.py): validates both columns, then
the operation name, then — except for `count` — the numeric dtype of the
target column; `count` reports group sizes, the rest aggregate the target. -/
def perform_data_aggregation (disk : Disk) (filename group_by_column operation
    target_column : String) : Except String AggPayload :=
  match load_csv_safely disk filename with
  | .error e => .error e
  | .ok t =>
    match validate_column_exists t group_by_column with
    | .error e => .error e
    | .ok _ =>
      match validate_column_exists t target_column with
      | .error e => .error e
      | .ok _ =>
        if ¬(operation = "sum" ∨ operation = "mean" ∨ operation = "count" ∨
             operation = "min" ∨ operation = "max" ∨ operation = "median") then
          .error ("Unsupported operation '" ++ operation ++
            "'. Supported: sum, mean, count, min, max, median")
        else
          match (if operation ≠ "count" then validate_numeric_column t target_column
                 else .ok ()) with
          | .error e => .error e
          | .ok _ =>
            let gcol := (lookupCol t group_by_column).getD (Col.text [])
            let results :=
              if operation = "count" then
                (groupKeys gcol).map (fun k => (k, pyRound ((groupSize gcol k : ℚ)) 2))
              else
                (groupKeys gcol).map (fun k =>
                  (k, pyRound (aggOp operation (groupVals gcol (numVals t target_column) k)) 2))
            .ok { dataset := filename
                  group_by_column := group_by_column
                  operation := operation
                  target_column := target_column
                  total_groups := results.length
                  results := results }

/-! ## Text lowering (Python str.lower, ASCII range)

All keyword and operation strings in the source are ASCII, so ASCII lowering
is the behaviour exercised. -/

/-- Lower-case an ASCII letter, leave everything else unchanged. -/
def lowerChar (c : Char) : Char :=
  if 'A' ≤ c ∧ c ≤ 'Z' then Char.ofNat (c.toNat + 32) else c

/-- Characters of `s.lower()`. -/
def lowerData (s : String) : List Char := s.data.map lowerChar

/-- Python `s.lower()` as a string. -/
def lowerString (s : String) : String := ⟨lowerData s⟩

/-- CSVAgent `perform_data_aggregation` (agent.py): validates existence of
both columns and then, for every operation including `count`, the numeric
dtype of the target column; supports mean, sum, count, max, min (no median);
`count` counts the non-missing target cells per group. -/
def agent_perform_data_aggregation (disk : Disk) (filename group_by_column operation
    target_column : String) : Except String AggPayload :=
  match load_csv_safely disk filename with
  | .error e => .error e
  | .ok t =>
    match lookupCol t group_by_column with
    | none => .error ("Group column '" ++ group_by_column ++ "' not found")
    | some gcol =>
      match lookupCol t target_column with
      | none => .error ("Target column '" ++ target_column ++ "' not found")
      | some tcol =>
        if ¬ tcol.isNumeric then
          .error ("Target column '" ++ target_column ++ "' is not numeric")
        else
          let opl := lowerString operation
          if opl = "mean" ∨ opl = "sum" ∨ opl = "count" ∨ opl = "max" ∨ opl = "min" then
            let tvals := numVals t target_column
            let results := (groupKeys gcol).map (fun k =>
              if opl = "count" then (k, pyRound ((groupVals gcol tvals k).length : ℚ) 2)
              else (k, pyRound (aggOp opl (groupVals gcol tvals k)) 2))
            .ok { dataset := filename
                  group_by_column := group_by_column
                  operation := operation
                  target_column := target_column
                  total_groups := results.length
                  results := results }
          else .error ("Unsupported operation '" ++ operation ++ "'")

/-! ## detect_correlations (tools.py and the CSVAgent variant)

The Pearson coefficient of two columns is `s_xy / sqrt(s_xx * s_yy)`, an
irrational number in general; it is represented exactly by the pair
`(s_xy, s_xx * s_yy)` of rationals (the sums of centred products over the
pairwise-complete rows), `none` standing for NaN (a zero variance, which
covers fewer than two paired rows as well).  Two coefficients are equal
whenever their representations are. -/

/-- Rows where both columns are non-missing, the pairwise-complete
observations pandas correlates. -/
def pairedRows (xs ys : List (Option ℚ)) : List (ℚ × ℚ) :=
  (xs.zip ys).filterMap
    (fun p => match p.1, p.2 with
      | some a, some b => some (a, b)
      | _, _ => none)

/-- Sum of squared deviations of the first components. -/
def sxx (ps : List (ℚ × ℚ)) : ℚ :=
  ((ps.map Prod.fst).map (fun x => (x - meanQ (ps.map Prod.fst)) ^ 2)).sum

/-- Sum of squared deviations of the second components. -/
def syy (ps : List (ℚ × ℚ)) : ℚ :=
  ((ps.map Prod.snd).map (fun y => (y - meanQ (ps.map Prod.snd)) ^ 2)).sum

/-- Sum of products of centred components. -/
def sxy (ps : List (ℚ × ℚ)) : ℚ :=
  (ps.map (fun p => (p.1 - meanQ (ps.map Prod.fst)) * (p.2 - meanQ (ps.map Prod.snd)))).sum

/-- Pearson correlation of the paired rows, as the exact representation
`(s_xy, s_xx * s_yy)` of `s_xy / sqrt(s_xx * s_yy)`; `none` is NaN. -/
def pearsonRep (ps : List (ℚ × ℚ)) : Option (ℚ × ℚ) :=
  if sxx ps = 0 ∨ syy ps = 0 then none
  else some (sxy ps, sxx ps * syy ps)

/-- Strength label of `_interpret_correlation_strength`: thresholds on the
absolute coefficient at 0.8/0.6/0.4/0.2, which for the representation
`(a, b)` of `a / sqrt b` (with `b > 0`) compare `a ^ 2` against
`threshold ^ 2 * b`.  On NaN every IEEE `>=` comparison is False, so the
Python chain falls through to the last branch. -/
def strengthRep (r : Option (ℚ × ℚ)) : String :=
  match r with
  | none => "very weak"
  | some (a, b) =>
    if a ^ 2 ≥ (16 / 25) * b then "very strong"
    else if a ^ 2 ≥ (9 / 25) * b then "strong"
    else if a ^ 2 ≥ (4 / 25) * b then "moderate"
    else if a ^ 2 ≥ (1 / 25) * b then "weak"
    else "very weak"

/-- One reported correlation pair. -/
structure CorrEntry where
  column1 : String
  column2 : String
  correlation : Option (ℚ × ℚ)
  strength : String
deriving DecidableEq

/-- Success payload of `detect_correlations` (tools.py).  The derived
`insights` strings of the source are a pure function of the entries and no
claim refers to them, so they are omitted. -/
structure CorrPayload where
  dataset : String
  columns_analyzed : List String
  correlations : List CorrEntry
deriving DecidableEq

/-- Validation loop of `detect_correlations`: existence and numeric dtype of
every requested column, first failure wins. -/
def validateNumericCols (t : Table) : List String → Except String Unit
  | [] => .ok ()
  | c :: rest =>
    match validate_numeric_column t c with
    | .error e => .error e
    | .ok _ => validateNumericCols t rest

/-- Pairs `(columns[i], columns[j])` with `i < j`, in loop order: the nested
`enumerate` double loop of the source emits, for each position, the pairs of
that column with each later column. -/
def allPairs : List String → List (String × String)
  | [] => []
  | x :: xs => xs.map (fun y => (x, y)) ++ allPairs xs

/-- Tool `detect_correlations` (tools.py): validates every column, requires at
least two, then reports every `i < j` pair — with no NaN filtering. -/
def detect_correlations (disk : Disk) (filename : String) (columns : List String) :
    Except String CorrPayload :=
  match load_csv_safely disk filename with
  | .error e => .error e
  | .ok t =>
    match validateNumericCols t columns with
    | .error e => .error e
    | .ok _ =>
      if columns.length < 2 then
        .error "At least 2 columns required for correlation analysis"
      else
        .ok { dataset := filename
              columns_analyzed := columns
              correlations := (allPairs columns).map (fun pr =>
                let r := pearsonRep (pairedRows (numVals t pr.1) (numVals t pr.2))
                { column1 := pr.1, column2 := pr.2, correlation := r,
                  strength := strengthRep r }) }

/-- Success payload of the CSVAgent `detect_correlations` variant. -/
structure AgentCorrPayload where
  correlations : List CorrEntry
  total_pairs : ℕ
deriving DecidableEq

/-- CSVAgent `detect_correlations` (agent.py): same `i < j` pair loop, but a
pair whose coefficient is NaN is skipped (`if not pd.isna(corr_value)`), and
there is no minimum-column-count check. -/
def agent_detect_correlations (disk : Disk) (filename : String)
    (columns : List String) : Except String AgentCorrPayload :=
  match load_csv_safely disk filename with
  | .error e => .error e
  | .ok t =>
    match validateNumericCols t columns with
    | .error e => .error e
    | .ok _ =>
      let entries := (allPairs columns).filterMap (fun pr =>
        match pearsonRep (pairedRows (numVals t pr.1) (numVals t pr.2)) with
        | none => none
        | some r => some { column1 := pr.1, column2 := pr.2,
                           correlation := some r,
                           strength := strengthRep (some r) : CorrEntry })
      .ok { correlations := entries, total_pairs := entries.length }

/-! ## find_outliers (tools.py) -/

/-- Exact lower IQR fence `Q1 - 1.5 * IQR`. -/
def iqrLowerBound (data : List ℚ) : ℚ :=
  quantileND data 1 4 - 3/2 * (quantileND data 3 4 - quantileND data 1 4)

/-- Exact upper IQR fence `Q3 + 1.5 * IQR`. -/
def iqrUpperBound (data : List ℚ) : ℚ :=
  quantileND data 3 4 + 3/2 * (quantileND data 3 4 - quantileND data 1 4)

/-- Helper `_detect_outliers_iqr` composed with the mask selection
`column_data[outliers]`: the values strictly outside the exact fences. -/
def detect_outliers_iqr (data : List ℚ) : List ℚ :=
  data.filter (fun v => decide (v < iqrLowerBound data) || decide (iqrUpperBound data < v))

/-- Z-score outlier test for one value.  The source computes
`z = |x - mean| / std` and flags `z > 3`; with `std = sqrt(v)` for the sample
variance `v > 0` this is equivalent to `(x - mean)^2 > 9 * v`, the form used
here to stay inside the rationals.  When the variance is NaN (fewer than two
values) or zero, `z` is NaN for every column value (a zero variance forces a
zero numerator), and an IEEE NaN comparison is False. -/
def zscoreFlag (data : List ℚ) (x : ℚ) : Bool :=
  match sampleVar data with
  | none => false
  | some v => if v = 0 then false else decide ((x - meanQ data) ^ 2 > 9 * v)

/-- Helper `_detect_outliers_zscore` composed with the mask selection. -/
def detect_outliers_zscore (data : List ℚ) : List ℚ :=
  data.filter (zscoreFlag data)

/-- Helper `_get_outlier_thresholds`: for IQR the two fences rounded to 2
decimals.  For z-score the source reports `mean ± 3 * std`, an irrational
number in general, not representable in the rational embedding and referred
to by no claim: the payload carries `none` for that method. -/
def get_outlier_thresholds (data : List ℚ) (method : String) : Option (ℚ × ℚ) :=
  if method = "iqr" then
    some (pyRound (iqrLowerBound data) 2, pyRound (iqrUpperBound data) 2)
  else none

/-- Success payload of `find_outliers`.  The returned dict rounds the outlier
values to 2 decimals for display; `outlier_values` keeps the selected raw
values and `outlier_values_rounded` the displayed ones. -/
structure OutlierPayload where
  dataset : String
  column_name : String
  method : String
  total_values : ℕ
  outlier_count : ℕ
  outlier_percentage : ℚ
  outlier_values : List ℚ
  outlier_values_rounded : List ℚ
  thresholds : Option (ℚ × ℚ)
deriving DecidableEq

/-- Tool `find_outliers` (tools.py). -/
def find_outliers (disk : Disk) (filename column_name method : String) :
    Except String OutlierPayload :=
  match load_csv_safely disk filename with
  | .error e => .error e
  | .ok t =>
    match validate_numeric_column t column_name with
    | .error e => .error e
    | .ok _ =>
      if ¬(method = "iqr" ∨ method = "zscore") then
        .error ("Unsupported method '" ++ method ++ "'. Supported: iqr, zscore")
      else
        let column_data := dropna (numVals t column_name)
        if column_data.length = 0 then
          .error ("No valid numeric data found in column '" ++ column_name ++ "'")
        else
          let outlier_values :=
            if method = "iqr" then detect_outliers_iqr column_data
            else detect_outliers_zscore column_data
          .ok { dataset := filename
                column_name := column_name
                method := method
                total_values := column_data.length
                outlier_count := outlier_values.length
                outlier_percentage :=
                  pyRound ((outlier_values.length : ℚ) / column_data.length * 100) 2
                outlier_values := outlier_values
                outlier_values_rounded := outlier_values.map (fun x => pyRound x 2)
                thresholds := get_outlier_thresholds column_data method }

/-! ## Request router (agents.py, AgentOrchestrator.route_request)

Python's `word in text` is substring containment; the text is lowered first.
The selected bucket name is returned; running the selected agent is the
external LLM runtime's business. -/

/-- Substring test: does `w` occur contiguously in `t`? -/
def hasSub : List Char → List Char → Bool
  | [], w => w.isEmpty
  | c :: rest, w => w.isPrefixOf (c :: rest) || hasSub rest w

/-- Python `w in textLower` for a keyword `w`. -/
def containsKeyword (textLower : List Char) (w : String) : Bool :=
  hasSub textLower w.data

/-- Keyword bucket routed to the data-loader agent. -/
def loaderKeywords : List String := ["load", "file", "dataset", "available", "columns"]

/-- Keyword bucket routed to the analytics agent. -/
def analyticsKeywords : List String :=
  ["average", "mean", "median", "count", "sum", "statistics"]

/-- Keyword bucket routed to the insight agent. -/
def insightKeywords : List String :=
  ["correlation", "outlier", "pattern", "insight", "relationship"]

/-- AgentOrchestrator `route_request`, the bucket-selection step: fixed check
order data-loader, analytics, insight, communication fallback. -/
def route_request (user_input : String) : String :=
  let lower := lowerData user_input
  if loaderKeywords.any (containsKeyword lower) then "data_loader"
  else if analyticsKeywords.any (containsKeyword lower) then "analytics"
  else if insightKeywords.any (containsKeyword lower) then "insight"
  else "communication"

/-! ## Dataset cache (DataManager `_get_cached_data`)

Python dataframes are heap objects mutable in place; `.copy()` allocates an
independent one.  The heap is modelled as a list of tables indexed by
address, the cache as a map from filename to the address of the cached
table; `_get_cached_data` returns the address of a fresh copy. -/

/-- Heap of allocated tables plus the cache dictionary. -/
structure CacheState where
  heap : List Table
  cache : List (String × ℕ)
deriving DecidableEq

/-- Table at a heap address (the empty table for a dangling address, never
reached below). -/
def readAddr (s : CacheState) (a : ℕ) : Table := s.heap.getD a ⟨[]⟩

/-- Allocate a fresh object holding table `t`: the model of `DataFrame.copy()`
(and of `read_csv` materialising a new frame). -/
def allocTable (s : CacheState) (t : Table) : CacheState × ℕ :=
  (⟨s.heap ++ [t], s.cache⟩, s.heap.length)

/-- DataManager `_get_cached_data`: on miss, load from disk and remember the
new frame in the cache dict; in both cases return (the address of) a copy of
the cached frame. -/
def get_cached_data (disk : Disk) (s : CacheState) (filename : String) :
    Except String (CacheState × ℕ) :=
  match s.cache.lookup filename with
  | some a => .ok (allocTable s (readAddr s a))
  | none =>
    match load_csv_safely disk filename with
    | .error e => .error e
    | .ok t =>
      let c1 := allocTable s t
      let s1 : CacheState := ⟨c1.1.heap, (filename, c1.2) :: c1.1.cache⟩
      .ok (allocTable s1 (readAddr s1 c1.2))

/-- In-place mutation of the heap object at address `a`. -/
def mutateAddr (s : CacheState) (a : ℕ) (g : Table → Table) : CacheState :=
  ⟨s.heap.set a (g (readAddr s a)), s.cache⟩

/-! ## Common facts and example data -/

/-- Error outcomes of a tool: the Python dict carried an "error" key. -/
def isErr {α : Type} : Except String α → Prop
  | .error _ => True
  | .ok _ => False

theorem matchCount_le (col : Col) (v : SearchVal) : matchCount col v ≤ colLen col := by
  cases col <;> cases v <;> simp only [matchCount, colLen] <;>
    first
      | exact List.countP_le_length _
      | exact Nat.zero_le _

theorem getD_append_lt {α : Type} (l l2 : List α) (a : ℕ) (h : a < l.length) (d : α) :
    (l ++ l2).getD a d = l.getD a d := by
  rw [List.getD_eq_getElem?_getD, List.getD_eq_getElem?_getD, List.getElem?_append]
  simp [h]

theorem getD_concat_length {α : Type} (l : List α) (t d : α) :
    (l ++ [t]).getD l.length d = t := by
  rw [List.getD_eq_getElem?_getD, List.getElem?_concat_length]
  rfl

theorem getD_set_ne {α : Type} (l : List α) {i j : ℕ} (h : i ≠ j) (x d : α) :
    (l.set i x).getD j d = l.getD j d := by
  rw [List.getD_eq_getElem?_getD, List.getD_eq_getElem?_getD, List.getElem?_set_ne h]

/-- Example table used by the witnesses: one general numeric column, one text
column, one constant numeric column, one linear numeric column, all of
length 4. -/
def demoTable : Table :=
  ⟨[("num", Col.numeric [some 1, some 2, some 4, none]),
    ("txt", Col.text [some "a", some "b", some "a", some "b"]),
    ("con", Col.numeric [some 5, some 5, some 5, some 5]),
    ("lin", Col.numeric [some 1, some 2, some 3, some 4])]⟩

/-- Example data directory holding only `demo.csv`. -/
def demoDisk : Disk := fun f => if f = "demo.csv" then .parsed demoTable else .missing

/-! ## Claim C4: row counting partitions the table -/

/-- Claim C4: for every countRowsWithValue call on an existing column of a
dataset with total_rows > 0, the result satisfies
matching_rows + non_matching_rows == total_rows and
percentage == round(matching_rows / total_rows * 100, 2). -/
theorem count_rows_partition_and_percentage (disk : Disk) (f c : String)
    (v : SearchVal) (t : Table) (col : Col) (p : CountPayload)
    (hload : load_csv_safely disk f = .ok t)
    (hcol : lookupCol t c = some col)
    (hwf : colLen col = t.nRows)
    (hpos : 0 < t.nRows)
    (hres : count_rows_with_value disk f c v = .ok p) :
    p.matching_rows + p.non_matching_rows = p.total_rows ∧
    p.percentage = pyRound ((p.matching_rows : ℚ) / (p.total_rows : ℚ) * 100) 2 := by
  unfold count_rows_with_value at hres
  rw [hload] at hres
  simp only [validate_column_exists, hcol] at hres
  rw [if_pos hpos] at hres
  rw [Except.ok.injEq] at hres
  subst hres
  have hle : matchCount col v ≤ t.nRows := hwf ▸ matchCount_le col v
  constructor
  · simp [hcol]
    omega
  · simp [hcol]

/-- Witness for C4 at the demo table: one of four rows holds the value 2. -/
theorem count_rows_partition_and_percentage_witness :
    (1 : ℕ) + 3 = 4 ∧ (25 : ℚ) = pyRound ((1 : ℚ) / (4 : ℚ) * 100) 2 := by
  have happ := count_rows_partition_and_percentage demoDisk "demo.csv" "num"
    (SearchVal.num 2) demoTable (Col.numeric [some 1, some 2, some 4, none])
    ⟨"demo.csv", "num", SearchVal.num 2, 4, 1, 25, 3⟩
    (by simp [load_csv_safely, demoDisk, demoTable, Table.emptyDf, Table.nRows, colLen])
    (by simp [lookupCol, demoTable, List.lookup])
    (by simp [colLen, Table.nRows, demoTable])
    (by simp [Table.nRows, demoTable, colLen])
    (by simp [count_rows_with_value, load_csv_safely, demoDisk, demoTable,
          Table.emptyDf, Table.nRows, colLen, validate_column_exists, lookupCol,
          List.lookup, matchCount, List.countP_cons, List.countP_nil]
        norm_num [pyRound, roundHalfEven])
  simpa using happ

/-! ## Claim C9: the router sends a correlation request to the insight agent -/

/-- Claim C9: for every user text that contains the word "correlation" and no
keyword of the data-loader or analytics buckets, the router selects the
insight bucket under the fixed check order. -/
theorem router_correlation_selects_insight (s : String)
    (hcorr : containsKeyword (lowerData s) "correlation" = true)
    (hload : ∀ w ∈ loaderKeywords, containsKeyword (lowerData s) w = false)
    (hana : ∀ w ∈ analyticsKeywords, containsKeyword (lowerData s) w = false) :
    route_request s = "insight" := by
  unfold route_request
  have h1 : loaderKeywords.any (containsKeyword (lowerData s)) = false :=
    List.any_eq_false.mpr (fun w hw => by simp [hload w hw])
  have h2 : analyticsKeywords.any (containsKeyword (lowerData s)) = false :=
    List.any_eq_false.mpr (fun w hw => by simp [hana w hw])
  have h3 : insightKeywords.any (containsKeyword (lowerData s)) = true :=
    List.any_eq_true.mpr ⟨"correlation", by simp [insightKeywords], hcorr⟩
  simp [h1, h2, h3]

/-- Witness for C9 on a concrete utterance. -/
theorem router_correlation_selects_insight_witness :
    route_request "show correlation please" = "insight" :=
  router_correlation_selects_insight "show correlation please"
    (by decide) (by decide) (by decide)

/-! ## Claim C10: z-score outliers of a constant column -/

theorem sampleVar_const {xs : List ℚ} {c : ℚ} (hne : xs ≠ [])
    (hc : ∀ x ∈ xs, x = c) : sampleVar xs = none ∨ sampleVar xs = some 0 := by
  unfold sampleVar
  by_cases hlen : xs.length ≤ 1
  · left
    simp [hlen]
  · right
    rw [if_neg hlen]
    have hmean : meanQ xs = c := mean_const hne hc
    have hzero : (xs.map (fun x => (x - meanQ xs) ^ 2)).sum = 0 := by
      apply List.sum_eq_zero
      intro y hy
      rcases List.mem_map.mp hy with ⟨x, hx, rfl⟩
      rw [hmean, hc x hx]
      ring
    rw [hzero]
    simp

theorem zscoreFlag_const {xs : List ℚ} {c : ℚ} (hne : xs ≠ [])
    (hc : ∀ x ∈ xs, x = c) (v : ℚ) : zscoreFlag xs v = false := by
  unfold zscoreFlag
  rcases sampleVar_const hne hc with h | h <;> rw [h] <;> simp

/-- Claim C10: findOutliers with method "zscore" on a constant numeric column
with at least one non-missing value succeeds with an empty outlier list: the
zero standard deviation makes every z-score NaN and the threshold comparison
flags nothing. -/
theorem zscore_constant_column_no_outliers (disk : Disk) (f c : String)
    (t : Table) (vs : List (Option ℚ)) (c0 : ℚ)
    (hload : load_csv_safely disk f = .ok t)
    (hcol : lookupCol t c = some (Col.numeric vs))
    (hne : dropna vs ≠ [])
    (hconst : ∀ x ∈ dropna vs, x = c0) :
    find_outliers disk f c "zscore" =
      .ok { dataset := f, column_name := c, method := "zscore",
            total_values := (dropna vs).length, outlier_count := 0,
            outlier_percentage := 0, outlier_values := [],
            outlier_values_rounded := [], thresholds := none } := by
  have hvals : numVals t c = vs := by simp [numVals, hcol]
  have hflags : detect_outliers_zscore (dropna vs) = [] := by
    unfold detect_outliers_zscore
    exact List.filter_eq_nil_iff.mpr (fun v hv => by simp [zscoreFlag_const hne hconst])
  have hlen : ¬ (dropna vs).length = 0 := by
    simpa [List.length_eq_zero] using hne
  have hpy : pyRound 0 2 = 0 := by norm_num [pyRound, roundHalfEven]
  unfold find_outliers
  rw [hload]
  simp only [validate_numeric_column, hcol, Col.isNumeric, hvals]
  simp [hflags, hlen, get_outlier_thresholds, hpy]

/-- Witness for C10 at the constant demo column. -/
theorem zscore_constant_column_no_outliers_witness :
    find_outliers demoDisk "demo.csv" "con" "zscore" =
      .ok { dataset := "demo.csv", column_name := "con", method := "zscore",
            total_values := (dropna [some 5, some 5, some 5, some 5]).length,
            outlier_count := 0, outlier_percentage := 0, outlier_values := [],
            outlier_values_rounded := [], thresholds := none } :=
  zscore_constant_column_no_outliers demoDisk "demo.csv" "con" demoTable
    [some 5, some 5, some 5, some 5] 5
    (by simp [load_csv_safely, demoDisk, demoTable, Table.emptyDf, Table.nRows, colLen])
    (by simp [lookupCol, demoTable, List.lookup])
    (by simp [dropna])
    (by intro x hx; simpa [dropna] using hx)

/-! ## Claim C5: the dataset cache returns independent copies -/

/-- Claim C5: two successive cache hits return two distinct fresh addresses,
both distinct from the cached object's address; mutating the first returned
object leaves the second returned object and the cached object holding the
original table. -/
theorem cache_returns_independent_copies (disk : Disk) (s : CacheState)
    (f : String) (a : ℕ) (g : Table → Table)
    (hc : s.cache.lookup f = some a) (ha : a < s.heap.length) :
    get_cached_data disk s f = .ok (⟨s.heap ++ [readAddr s a], s.cache⟩, s.heap.length) ∧
    get_cached_data disk ⟨s.heap ++ [readAddr s a], s.cache⟩ f =
      .ok (⟨(s.heap ++ [readAddr s a]) ++ [readAddr s a], s.cache⟩, s.heap.length + 1) ∧
    a ≠ s.heap.length ∧ a ≠ s.heap.length + 1 ∧ s.heap.length ≠ s.heap.length + 1 ∧
    readAddr (mutateAddr ⟨(s.heap ++ [readAddr s a]) ++ [readAddr s a], s.cache⟩
        s.heap.length g) (s.heap.length + 1) = readAddr s a ∧
    readAddr (mutateAddr ⟨(s.heap ++ [readAddr s a]) ++ [readAddr s a], s.cache⟩
        s.heap.length g) a = readAddr s a := by
  have hfst : get_cached_data disk s f =
      .ok (⟨s.heap ++ [readAddr s a], s.cache⟩, s.heap.length) := by
    unfold get_cached_data
    rw [hc]
    rfl
  have hread1 : readAddr ⟨s.heap ++ [readAddr s a], s.cache⟩ a = readAddr s a := by
    unfold readAddr
    exact getD_append_lt s.heap [readAddr s a] a ha _
  have hsnd : get_cached_data disk ⟨s.heap ++ [readAddr s a], s.cache⟩ f =
      .ok (⟨(s.heap ++ [readAddr s a]) ++ [readAddr s a], s.cache⟩, s.heap.length + 1) := by
    unfold get_cached_data
    rw [show (⟨s.heap ++ [readAddr s a], s.cache⟩ : CacheState).cache = s.cache from rfl, hc]
    simp only [allocTable, hread1]
    simp [List.length_append]
  refine ⟨hfst, hsnd, by omega, by omega, by omega, ?_, ?_⟩
  · unfold mutateAddr readAddr
    simp only
    rw [getD_set_ne _ (by omega)]
    have : (s.heap ++ [readAddr s a]).length = s.heap.length + 1 := by
      simp
    rw [← this]
    exact getD_concat_length _ _ _
  · unfold mutateAddr readAddr
    simp only
    rw [getD_set_ne _ (by omega)]
    rw [getD_append_lt _ _ a (by simp; omega), getD_append_lt _ _ a ha]

/-- Witness for C5: a one-table cache around the demo table. -/
theorem cache_returns_independent_copies_witness :
    get_cached_data demoDisk ⟨[demoTable], [("demo.csv", 0)]⟩ "demo.csv" =
      .ok (⟨[demoTable] ++ [readAddr ⟨[demoTable], [("demo.csv", 0)]⟩ 0],
            [("demo.csv", 0)]⟩, 1) ∧
    get_cached_data demoDisk
        ⟨[demoTable] ++ [readAddr ⟨[demoTable], [("demo.csv", 0)]⟩ 0], [("demo.csv", 0)]⟩
        "demo.csv" =
      .ok (⟨([demoTable] ++ [readAddr ⟨[demoTable], [("demo.csv", 0)]⟩ 0]) ++
              [readAddr ⟨[demoTable], [("demo.csv", 0)]⟩ 0], [("demo.csv", 0)]⟩, 2) ∧
    (0 : ℕ) ≠ 1 ∧ (0 : ℕ) ≠ 2 ∧ (1 : ℕ) ≠ 2 ∧
    readAddr (mutateAddr ⟨([demoTable] ++ [readAddr ⟨[demoTable], [("demo.csv", 0)]⟩ 0]) ++
        [readAddr ⟨[demoTable], [("demo.csv", 0)]⟩ 0], [("demo.csv", 0)]⟩
        1 (fun _ => ⟨[]⟩)) 2 = readAddr ⟨[demoTable], [("demo.csv", 0)]⟩ 0 ∧
    readAddr (mutateAddr ⟨([demoTable] ++ [readAddr ⟨[demoTable], [("demo.csv", 0)]⟩ 0]) ++
        [readAddr ⟨[demoTable], [("demo.csv", 0)]⟩ 0], [("demo.csv", 0)]⟩
        1 (fun _ => ⟨[]⟩)) 0 = readAddr ⟨[demoTable], [("demo.csv", 0)]⟩ 0 :=
  cache_returns_independent_copies demoDisk ⟨[demoTable], [("demo.csv", 0)]⟩
    "demo.csv" 0 (fun _ => ⟨[]⟩) (by simp [List.lookup]) (by simp)

/-! ## Claim C2: columnStatistics count and ordered quartiles

The source rounds the reported q25/median/q75 to 2 decimals but reports min
and max unrounded; rounding can push the reported q25 strictly below the
reported min, so the ordering claim holds for the unrounded quantiles, not
for the reported (rounded) ones.  The counterexample below exhibits the
violation; the theorem states the amended claim. -/

/-- Table whose only column holds 0.004 twice: its true quartiles all equal
0.004, and rounding them to 2 decimals yields 0, strictly below the
(unrounded) reported minimum. -/
def statsCexTable : Table :=
  ⟨[("c", Col.numeric [some (4/1000), some (4/1000)])]⟩

/-- Disk holding only `stats.csv`. -/
def statsCexDisk : Disk :=
  fun f => if f = "stats.csv" then .parsed statsCexTable else .missing

/-- Counterexample to C2 as stated: on the column [0.004, 0.004] the reported
payload has min = 1/250 = 0.004 and q25 = round(0.004, 2) = 0, violating
min <= q25. -/
theorem column_statistics_min_le_q25_cex :
    calculate_column_statistics statsCexDisk "stats.csv" "c" =
      .ok ⟨"c", "stats.csv", 2, 0, 0, 1/250, 1/250, 0, 0, 0⟩ ∧
    ¬ ((1 : ℚ)/250 ≤ (0 : ℚ)) := by
  constructor
  · simp [calculate_column_statistics, load_csv_safely, statsCexDisk, statsCexTable,
      Table.emptyDf, Table.nRows, colLen, validate_numeric_column, lookupCol,
      List.lookup, Col.isNumeric, numVals, dropna, List.filterMap_cons,
      List.filterMap_nil, meanQ, sumQ, List.sum_cons, List.sum_nil, quantileND,
      sortQ, List.insertionSort, List.orderedInsert, nthS, qIndex, qFrac, listMin,
      listMax, List.foldl_cons, List.foldl_nil, List.countP_cons, List.countP_nil]
    norm_num [pyRound, roundHalfEven]
  · norm_num

/-- Claim C2, amended: columnStatistics on a numeric column with N non-missing
values succeeds with count = N; the unrounded quantiles satisfy
min <= q25 <= median <= q75 <= max, and the reported q25/median/q75 are those
quantiles rounded to 2 decimals (which can fall below the reported min). -/
theorem column_statistics_count_and_quartile_order (disk : Disk) (f c : String)
    (t : Table) (vs : List (Option ℚ)) (p : StatsPayload)
    (hload : load_csv_safely disk f = .ok t)
    (hcol : lookupCol t c = some (Col.numeric vs))
    (hres : calculate_column_statistics disk f c = .ok p) :
    p.count = (dropna vs).length ∧
    p.min ≤ quantileND (dropna vs) 1 4 ∧
    quantileND (dropna vs) 1 4 ≤ quantileND (dropna vs) 2 4 ∧
    quantileND (dropna vs) 2 4 ≤ quantileND (dropna vs) 3 4 ∧
    quantileND (dropna vs) 3 4 ≤ p.max ∧
    p.q25 = pyRound (quantileND (dropna vs) 1 4) 2 ∧
    p.median = pyRound (quantileND (dropna vs) 2 4) 2 ∧
    p.q75 = pyRound (quantileND (dropna vs) 3 4) 2 := by
  have hvals : numVals t c = vs := by simp [numVals, hcol]
  unfold calculate_column_statistics at hres
  rw [hload] at hres
  simp only [validate_numeric_column, hcol, Col.isNumeric, hvals, if_true] at hres
  by_cases hlen : (dropna vs).length = 0
  · rw [if_pos hlen] at hres
    exact absurd hres (by simp)
  · rw [if_neg hlen] at hres
    rw [Except.ok.injEq] at hres
    subst hres
    have hne : dropna vs ≠ [] := fun hc => hlen (by simp [hc])
    refine ⟨rfl, ?_, ?_, ?_, ?_, rfl, rfl, rfl⟩
    · exact listMin_le_quantile _ hne (by norm_num)
    · exact quantileND_mono _ (by norm_num) (by norm_num)
    · exact quantileND_mono _ (by norm_num) (by norm_num)
    · exact quantile_le_listMax _ hne (by norm_num) (by norm_num)

/-- Witness for the amended C2 at the demo column [1, 2, 4, missing]. -/
theorem column_statistics_count_and_quartile_order_witness :
    (3 : ℕ) = (dropna [some 1, some 2, some 4, none]).length ∧
    (1 : ℚ) ≤ quantileND (dropna [some 1, some 2, some 4, none]) 1 4 ∧
    quantileND (dropna [some 1, some 2, some 4, none]) 1 4 ≤
      quantileND (dropna [some 1, some 2, some 4, none]) 2 4 ∧
    quantileND (dropna [some 1, some 2, some 4, none]) 2 4 ≤
      quantileND (dropna [some 1, some 2, some 4, none]) 3 4 ∧
    quantileND (dropna [some 1, some 2, some 4, none]) 3 4 ≤ (4 : ℚ) ∧
    (3 : ℚ)/2 = pyRound (quantileND (dropna [some 1, some 2, some 4, none]) 1 4) 2 ∧
    (2 : ℚ) = pyRound (quantileND (dropna [some 1, some 2, some 4, none]) 2 4) 2 ∧
    (3 : ℚ) = pyRound (quantileND (dropna [some 1, some 2, some 4, none]) 3 4) 2 :=
  column_statistics_count_and_quartile_order demoDisk "demo.csv" "num" demoTable
    [some 1, some 2, some 4, none] ⟨"num", "demo.csv", 3, 233/100, 2, 1, 4, 3/2, 3, 1⟩
    (by simp [load_csv_safely, demoDisk, demoTable, Table.emptyDf, Table.nRows, colLen])
    (by simp [lookupCol, demoTable, List.lookup])
    (by simp [calculate_column_statistics, load_csv_safely, demoDisk, demoTable,
          Table.emptyDf, Table.nRows, colLen, validate_numeric_column, lookupCol,
          List.lookup, Col.isNumeric, numVals, dropna, List.filterMap_cons,
          List.filterMap_nil, meanQ, sumQ, List.sum_cons, List.sum_nil, quantileND,
          sortQ, List.insertionSort, List.orderedInsert, nthS, qIndex, qFrac,
          listMin, listMax, List.foldl_cons, List.foldl_nil, List.countP_cons,
          List.countP_nil]
        norm_num [pyRound, roundHalfEven])

/-! ## Claim C1: IQR outliers versus the reported bounds

The outlier mask uses the exact fences, but the reported thresholds are those
fences rounded to 2 decimals, so a flagged value can lie strictly between the
reported bounds.  The counterexample exhibits it; the theorem states the
amended claim, with the exact fences. -/

/-- Table whose only column is [0.001, 0.009, 0.009, 0.009]: the exact lower
fence is 0.004, reported as round(0.004, 2) = 0, and the flagged value 0.001
lies strictly between the reported bounds 0 and 0.01. -/
def iqrCexTable : Table :=
  ⟨[("x", Col.numeric [some (1/1000), some (9/1000), some (9/1000), some (9/1000)])]⟩

/-- Disk holding only `iqr.csv`. -/
def iqrCexDisk : Disk :=
  fun f => if f = "iqr.csv" then .parsed iqrCexTable else .missing

/-- Counterexample to C1 as stated: the reported outlier 1/1000 lies strictly
between the reported lower bound 0 and the reported upper bound 1/100. -/
theorem iqr_outliers_within_reported_bounds_cex :
    find_outliers iqrCexDisk "iqr.csv" "x" "iqr" =
      .ok ⟨"iqr.csv", "x", "iqr", 4, 1, 25, [1/1000], [0], some (0, 1/100)⟩ ∧
    (0 : ℚ) < 1/1000 ∧ (1 : ℚ)/1000 < 1/100 := by
  constructor
  · simp [find_outliers, load_csv_safely, iqrCexDisk, iqrCexTable, Table.emptyDf,
      Table.nRows, colLen, validate_numeric_column, lookupCol, List.lookup,
      numVals, dropna, Col.isNumeric, detect_outliers_iqr, iqrLowerBound,
      iqrUpperBound, quantileND, sortQ, List.insertionSort, List.orderedInsert,
      nthS, qIndex, qFrac, get_outlier_thresholds, List.filter_cons,
      List.filter_nil, List.filterMap_cons, List.filterMap_nil]
    norm_num [pyRound, roundHalfEven]
  · norm_num

/-- Claim C1, amended: for a numeric column with at least one non-missing
value, findOutliers with method "iqr" flags exactly the values strictly
outside the exact IQR fences: no value inside or on the exact fences appears
in the outlier list and every value strictly outside them does; the reported
thresholds are the exact fences rounded to 2 decimals (so relative to the
reported bounds, a flagged value can lie strictly inside). -/
theorem iqr_outliers_match_exact_bounds (disk : Disk) (f c : String)
    (t : Table) (vs : List (Option ℚ)) (p : OutlierPayload)
    (hload : load_csv_safely disk f = .ok t)
    (hcol : lookupCol t c = some (Col.numeric vs))
    (hres : find_outliers disk f c "iqr" = .ok p) :
    (∀ v ∈ p.outlier_values,
        v < iqrLowerBound (dropna vs) ∨ iqrUpperBound (dropna vs) < v) ∧
    (∀ v ∈ dropna vs,
        (v < iqrLowerBound (dropna vs) ∨ iqrUpperBound (dropna vs) < v) →
          v ∈ p.outlier_values) ∧
    p.thresholds = some (pyRound (iqrLowerBound (dropna vs)) 2,
                         pyRound (iqrUpperBound (dropna vs)) 2) := by
  have hvals : numVals t c = vs := by simp [numVals, hcol]
  by_cases hlen : (dropna vs).length = 0
  · have hcomp : find_outliers disk f c "iqr" =
        .error ("No valid numeric data found in column '" ++ c ++ "'") := by
      unfold find_outliers
      rw [hload]
      simp [validate_numeric_column, hcol, Col.isNumeric, hvals, hlen]
    rw [hcomp] at hres
    exact absurd hres (by simp)
  · have hcomp : find_outliers disk f c "iqr" =
        .ok { dataset := f, column_name := c, method := "iqr",
              total_values := (dropna vs).length,
              outlier_count := (detect_outliers_iqr (dropna vs)).length,
              outlier_percentage :=
                pyRound (((detect_outliers_iqr (dropna vs)).length : ℚ) /
                  ((dropna vs).length : ℚ) * 100) 2,
              outlier_values := detect_outliers_iqr (dropna vs),
              outlier_values_rounded :=
                (detect_outliers_iqr (dropna vs)).map (fun x => pyRound x 2),
              thresholds := some (pyRound (iqrLowerBound (dropna vs)) 2,
                                  pyRound (iqrUpperBound (dropna vs)) 2) } := by
      unfold find_outliers
      rw [hload]
      simp [validate_numeric_column, hcol, Col.isNumeric, hvals, hlen,
        get_outlier_thresholds]
    rw [hcomp, Except.ok.injEq] at hres
    subst hres
    refine ⟨?_, ?_, rfl⟩
    · intro v hv
      simp only [detect_outliers_iqr, List.mem_filter] at hv
      rcases hv with ⟨-, hflag⟩
      simpa using hflag
    · intro v hv hout
      simp only [detect_outliers_iqr, List.mem_filter]
      exact ⟨hv, by simpa using hout⟩

/-- Witness for the amended C1 at the demo column [1, 2, 3, 4], which has no
IQR outliers and exact fences -1/2 and 11/2. -/
theorem iqr_outliers_match_exact_bounds_witness :
    (∀ v ∈ ([] : List ℚ),
        v < iqrLowerBound (dropna [some 1, some 2, some 3, some 4]) ∨
          iqrUpperBound (dropna [some 1, some 2, some 3, some 4]) < v) ∧
    (∀ v ∈ dropna [some 1, some 2, some 3, some 4],
        (v < iqrLowerBound (dropna [some 1, some 2, some 3, some 4]) ∨
            iqrUpperBound (dropna [some 1, some 2, some 3, some 4]) < v) →
          v ∈ ([] : List ℚ)) ∧
    (some ((-1 : ℚ)/2, (11 : ℚ)/2) : Option (ℚ × ℚ)) =
      some (pyRound (iqrLowerBound (dropna [some 1, some 2, some 3, some 4])) 2,
            pyRound (iqrUpperBound (dropna [some 1, some 2, some 3, some 4])) 2) :=
  iqr_outliers_match_exact_bounds demoDisk "demo.csv" "lin" demoTable
    [some 1, some 2, some 3, some 4]
    ⟨"demo.csv", "lin", "iqr", 4, 0, 0, [], [], some (-1/2, 11/2)⟩
    (by simp [load_csv_safely, demoDisk, demoTable, Table.emptyDf, Table.nRows, colLen])
    (by simp [lookupCol, demoTable, List.lookup])
    (by simp [find_outliers, load_csv_safely, demoDisk, demoTable, Table.emptyDf,
          Table.nRows, colLen, validate_numeric_column, lookupCol, List.lookup,
          numVals, dropna, Col.isNumeric, detect_outliers_iqr, iqrLowerBound,
          iqrUpperBound, quantileND, sortQ, List.insertionSort, List.orderedInsert,
          nthS, qIndex, qFrac, get_outlier_thresholds, List.filter_cons,
          List.filter_nil, List.filterMap_cons, List.filterMap_nil]
        norm_num [pyRound, roundHalfEven])

/-! ## Pearson symmetry and the pair enumeration -/

theorem pairedRows_swap (xs ys : List (Option ℚ)) :
    pairedRows ys xs = (pairedRows xs ys).map Prod.swap := by
  induction xs generalizing ys with
  | nil => simp [pairedRows, List.zip_nil_right]
  | cons a xs ih =>
    cases ys with
    | nil => simp [pairedRows, List.zip_nil_right]
    | cons b ys =>
      have hih := ih ys
      cases a <;> cases b <;>
        simpa [pairedRows, List.zip_cons_cons, List.filterMap_cons] using hih

theorem map_fst_swap (ps : List (ℚ × ℚ)) :
    (ps.map Prod.swap).map Prod.fst = ps.map Prod.snd := by
  rw [List.map_map]
  rfl

theorem map_snd_swap (ps : List (ℚ × ℚ)) :
    (ps.map Prod.swap).map Prod.snd = ps.map Prod.fst := by
  rw [List.map_map]
  rfl

theorem sxx_swap (ps : List (ℚ × ℚ)) : sxx (ps.map Prod.swap) = syy ps := by
  unfold sxx syy
  rw [map_fst_swap]

theorem syy_swap (ps : List (ℚ × ℚ)) : syy (ps.map Prod.swap) = sxx ps := by
  unfold sxx syy
  rw [map_snd_swap]

theorem sxy_swap (ps : List (ℚ × ℚ)) : sxy (ps.map Prod.swap) = sxy ps := by
  unfold sxy
  rw [map_fst_swap, map_snd_swap, List.map_map]
  exact congrArg List.sum (List.map_congr_left (fun p _ => by
    cases p
    simp [Prod.swap]
    ring))

theorem pearsonRep_swap (ps : List (ℚ × ℚ)) :
    pearsonRep (ps.map Prod.swap) = pearsonRep ps := by
  unfold pearsonRep
  rw [sxx_swap, syy_swap, sxy_swap, mul_comm (syy ps) (sxx ps)]
  by_cases h : sxx ps = 0 ∨ syy ps = 0
  · rw [if_pos (Or.symm h), if_pos h]
  · rw [if_neg (fun hc => h (Or.symm hc)), if_neg h]

theorem allPairs_mem {l : List String} {pr : String × String}
    (h : pr ∈ allPairs l) : pr.1 ∈ l ∧ pr.2 ∈ l := by
  induction l with
  | nil => simp [allPairs] at h
  | cons x xs ih =>
    simp only [allPairs, List.mem_append, List.mem_map] at h
    rcases h with ⟨y, hy, rfl⟩ | h
    · exact ⟨List.mem_cons_self x xs, List.mem_cons_of_mem x hy⟩
    · rcases ih h with ⟨h1, h2⟩
      exact ⟨List.mem_cons_of_mem x h1, List.mem_cons_of_mem x h2⟩

theorem allPairs_no_self {l : List String} (hnd : l.Nodup) {pr : String × String}
    (h : pr ∈ allPairs l) : pr.1 ≠ pr.2 := by
  induction l with
  | nil => simp [allPairs] at h
  | cons x xs ih =>
    rcases List.nodup_cons.mp hnd with ⟨hx, hxs⟩
    simp only [allPairs, List.mem_append, List.mem_map] at h
    rcases h with ⟨y, hy, rfl⟩ | h
    · intro hc
      have hc2 : x = y := hc
      exact hx (hc2 ▸ hy)
    · exact ih hxs h

theorem countP_eq_one_self {b : String} : ∀ {l : List String}, l.Nodup → b ∈ l →
    l.countP (fun y => decide (y = b)) = 1 := by
  intro l
  induction l with
  | nil => intro _ hb; simp at hb
  | cons z zs ih =>
    intro hnd hb
    rcases List.nodup_cons.mp hnd with ⟨hz, hzs⟩
    rcases List.mem_cons.mp hb with rfl | hb'
    · have h0 : zs.countP (fun y => decide (y = b)) = 0 :=
        List.countP_eq_zero.mpr (fun y hy => by
          simp only [decide_eq_true_eq]
          exact fun hc => hz (hc ▸ hy))
      rw [List.countP_cons]
      simp [h0]
    · have hzb : ¬ (z = b) := fun hc => hz (hc ▸ hb')
      rw [List.countP_cons]
      simp [ih hzs hb', hzb]

theorem allPairs_count_one : ∀ {l : List String}, l.Nodup → ∀ {a b : String},
    a ∈ l → b ∈ l → a ≠ b →
    (allPairs l).countP (fun pr => decide (pr = (a, b) ∨ pr = (b, a))) = 1 := by
  intro l
  induction l with
  | nil => intro _ a b ha; simp at ha
  | cons x xs ih =>
    intro hnd a b ha hb hab
    rcases List.nodup_cons.mp hnd with ⟨hx, hxs⟩
    rw [show allPairs (x :: xs) = xs.map (fun y => (x, y)) ++ allPairs xs from rfl,
      List.countP_append, List.countP_map]
    by_cases hxa : x = a
    · subst hxa
      have hxb : ¬ x = b := hab
      have hbxs : b ∈ xs := by
        rcases List.mem_cons.mp hb with rfl | h
        · exact absurd rfl hab
        · exact h
      have h1 : xs.countP
          ((fun pr => decide (pr = (x, b) ∨ pr = (b, x))) ∘ (fun y => (x, y))) = 1 := by
        rw [List.countP_congr (q := fun y => decide (y = b))
          (fun y hy => by simp [Function.comp, Prod.mk.injEq, hxb])]
        exact countP_eq_one_self hxs hbxs
      have h2 : (allPairs xs).countP (fun pr => decide (pr = (x, b) ∨ pr = (b, x))) = 0 := by
        apply List.countP_eq_zero.mpr
        intro pr hpr
        have hm := allPairs_mem hpr
        simp only [decide_eq_true_eq]
        rintro (rfl | rfl)
        · exact hx hm.1
        · exact hx hm.2
      rw [h1, h2]
    · by_cases hxb : x = b
      · subst hxb
        have haxs : a ∈ xs := by
          rcases List.mem_cons.mp ha with rfl | h
          · exact absurd rfl (fun hc => hxa hc.symm)
          · exact h
        have h1 : xs.countP
            ((fun pr => decide (pr = (a, x) ∨ pr = (x, a))) ∘ (fun y => (x, y))) = 1 := by
          rw [List.countP_congr (q := fun y => decide (y = a))
            (fun y hy => by simp [Function.comp, Prod.mk.injEq, hxa])]
          exact countP_eq_one_self hxs haxs
        have h2 : (allPairs xs).countP (fun pr => decide (pr = (a, x) ∨ pr = (x, a))) = 0 := by
          apply List.countP_eq_zero.mpr
          intro pr hpr
          have hm := allPairs_mem hpr
          simp only [decide_eq_true_eq]
          rintro (rfl | rfl)
          · exact hx hm.2
          · exact hx hm.1
        rw [h1, h2]
      · have haxs : a ∈ xs := by
          rcases List.mem_cons.mp ha with rfl | h
          · exact absurd rfl (fun hc => hxa hc.symm)
          · exact h
        have hbxs : b ∈ xs := by
          rcases List.mem_cons.mp hb with rfl | h
          · exact absurd rfl (fun hc => hxb hc.symm)
          · exact h
        have h1 : xs.countP
            ((fun pr => decide (pr = (a, b) ∨ pr = (b, a))) ∘ (fun y => (x, y))) = 0 := by
          apply List.countP_eq_zero.mpr
          intro y hy
          simp only [Function.comp, decide_eq_true_eq, Prod.mk.injEq]
          rintro (⟨h1, -⟩ | ⟨h1, -⟩)
          · exact hxa h1
          · exact hxb h1
        rw [h1, ih hxs haxs hbxs hab]

/-- Inversion of a successful tools-variant correlation call: the entries are
the mapped `i < j` pairs. -/
theorem detect_correlations_ok_inv (disk : Disk) (f : String) (cols : List String)
    (t : Table) (p : CorrPayload)
    (hload : load_csv_safely disk f = .ok t)
    (hres : detect_correlations disk f cols = .ok p) :
    p.correlations = (allPairs cols).map (fun pr =>
      { column1 := pr.1, column2 := pr.2,
        correlation := pearsonRep (pairedRows (numVals t pr.1) (numVals t pr.2)),
        strength :=
          strengthRep (pearsonRep (pairedRows (numVals t pr.1) (numVals t pr.2)))
        : CorrEntry }) := by
  unfold detect_correlations at hres
  rw [hload] at hres
  cases hv : validateNumericCols t cols with
  | error e =>
    simp only [hv] at hres
    exact absurd hres (by simp)
  | ok u =>
    cases u
    simp only [hv] at hres
    by_cases hlen : cols.length < 2
    · rw [if_pos hlen] at hres
      exact absurd hres (by simp)
    · rw [if_neg hlen] at hres
      rw [Except.ok.injEq] at hres
      rw [← hres]

/-- Inversion of a successful CSVAgent-variant correlation call: the entries
are the `i < j` pairs filtered of NaN coefficients. -/
theorem agent_detect_correlations_ok_inv (disk : Disk) (f : String)
    (cols : List String) (t : Table) (p : AgentCorrPayload)
    (hload : load_csv_safely disk f = .ok t)
    (hres : agent_detect_correlations disk f cols = .ok p) :
    p.correlations = (allPairs cols).filterMap (fun pr =>
      match pearsonRep (pairedRows (numVals t pr.1) (numVals t pr.2)) with
      | none => none
      | some r => some { column1 := pr.1, column2 := pr.2,
                         correlation := some r,
                         strength := strengthRep (some r) : CorrEntry }) := by
  unfold agent_detect_correlations at hres
  rw [hload] at hres
  cases hv : validateNumericCols t cols with
  | error e =>
    simp only [hv] at hres
    exact absurd hres (by simp)
  | ok u =>
    cases u
    simp only [hv] at hres
    rw [Except.ok.injEq] at hres
    rw [← hres]

/-! ## Claim C3: NaN correlations

The CSVAgent variant (agent.py) drops NaN pairs; the tools variant (tools.py)
has no NaN check and reports the pair with a NaN coefficient (never zero).
The counterexample shows the claim false for the tools variant; the theorem
states the amended claim covering both variants. -/

/-- Table with a constant column x and a linear column y: their Pearson
correlation is NaN. -/
def corrCexTable : Table :=
  ⟨[("x", Col.numeric [some 1, some 1, some 1]),
    ("y", Col.numeric [some 1, some 2, some 3])]⟩

/-- Disk holding only `corr.csv`. -/
def corrCexDisk : Disk :=
  fun f => if f = "corr.csv" then .parsed corrCexTable else .missing

/-- Counterexample to C3 as stated: the tools-variant correlate on a constant
column does not omit the NaN pair — the pair (x, y) is present in the output,
with a NaN coefficient and the fall-through strength label. -/
theorem nan_correlation_reported_cex :
    detect_correlations corrCexDisk "corr.csv" ["x", "y"] =
      .ok ⟨"corr.csv", ["x", "y"], [⟨"x", "y", none, "very weak"⟩]⟩ := by
  simp [detect_correlations, load_csv_safely, corrCexDisk, corrCexTable,
    Table.emptyDf, Table.nRows, colLen, validateNumericCols,
    validate_numeric_column, lookupCol, List.lookup, Col.isNumeric, numVals,
    allPairs, pairedRows, List.zip_cons_cons, List.zip_nil_right,
    List.filterMap_cons, List.filterMap_nil, pearsonRep, sxx, syy, sxy, meanQ,
    sumQ, List.sum_cons, List.sum_nil, strengthRep]
  norm_num

/-- Claim C3, amended: in the CSVAgent variant every NaN pair is omitted from
the output (and so never reported at all); in the tools variant the entries
carry exactly the Pearson representation of their column pair, so a NaN pair
appears with a NaN coefficient — included in the list, never reported as
zero. -/
theorem nan_correlation_handling (disk : Disk) (f : String) (cols : List String)
    (t : Table) (p : AgentCorrPayload) (q : CorrPayload)
    (hload : load_csv_safely disk f = .ok t)
    (hagent : agent_detect_correlations disk f cols = .ok p)
    (htools : detect_correlations disk f cols = .ok q) :
    (∀ e ∈ p.correlations, e.correlation ≠ none) ∧
    (∀ pr ∈ allPairs cols,
      pearsonRep (pairedRows (numVals t pr.1) (numVals t pr.2)) = none →
        ∀ e ∈ p.correlations, ¬(e.column1 = pr.1 ∧ e.column2 = pr.2)) ∧
    (∀ e ∈ q.correlations,
      e.correlation = pearsonRep (pairedRows (numVals t e.column1) (numVals t e.column2))) := by
  have hpinv := agent_detect_correlations_ok_inv disk f cols t p hload hagent
  have hqinv := detect_correlations_ok_inv disk f cols t q hload htools
  refine ⟨?_, ?_, ?_⟩
  · intro e he
    rw [hpinv] at he
    rcases List.mem_filterMap.mp he with ⟨pr, hpr, hfn⟩
    cases hrep : pearsonRep (pairedRows (numVals t pr.1) (numVals t pr.2)) with
    | none => rw [hrep] at hfn; exact absurd hfn (by simp)
    | some r =>
      rw [hrep] at hfn
      simp only [Option.some.injEq] at hfn
      rw [← hfn]
      simp
  · intro pr hpr hnan e he hcols
    rw [hpinv] at he
    rcases List.mem_filterMap.mp he with ⟨pr2, hpr2, hfn⟩
    cases hrep : pearsonRep (pairedRows (numVals t pr2.1) (numVals t pr2.2)) with
    | none => rw [hrep] at hfn; exact absurd hfn (by simp)
    | some r =>
      rw [hrep] at hfn
      simp only [Option.some.injEq] at hfn
      subst hfn
      have h1 : pr2.1 = pr.1 := hcols.1
      have h2 : pr2.2 = pr.2 := hcols.2
      rw [← h1, ← h2] at hnan
      rw [hnan] at hrep
      exact absurd hrep (by simp)
  · intro e he
    rw [hqinv] at he
    rcases List.mem_map.mp he with ⟨pr, hpr, hfn⟩
    rw [← hfn]

/-- Witness for the amended C3 at the constant-column table: the agent
variant returns no pairs, the tools variant returns the NaN pair with a NaN
coefficient. -/
theorem nan_correlation_handling_witness :
    (∀ e ∈ (⟨[], 0⟩ : AgentCorrPayload).correlations, e.correlation ≠ none) ∧
    (∀ pr ∈ allPairs ["x", "y"],
      pearsonRep (pairedRows (numVals corrCexTable pr.1) (numVals corrCexTable pr.2)) = none →
        ∀ e ∈ (⟨[], 0⟩ : AgentCorrPayload).correlations,
          ¬(e.column1 = pr.1 ∧ e.column2 = pr.2)) ∧
    (∀ e ∈ (⟨"corr.csv", ["x", "y"],
        [⟨"x", "y", none, "very weak"⟩]⟩ : CorrPayload).correlations,
      e.correlation =
        pearsonRep (pairedRows (numVals corrCexTable e.column1)
          (numVals corrCexTable e.column2))) :=
  nan_correlation_handling corrCexDisk "corr.csv" ["x", "y"] corrCexTable
    ⟨[], 0⟩ ⟨"corr.csv", ["x", "y"], [⟨"x", "y", none, "very weak"⟩]⟩
    (by simp [load_csv_safely, corrCexDisk, corrCexTable, Table.emptyDf,
      Table.nRows, colLen])
    (by simp [agent_detect_correlations, load_csv_safely, corrCexDisk,
        corrCexTable, Table.emptyDf, Table.nRows, colLen, validateNumericCols,
        validate_numeric_column, lookupCol, List.lookup, Col.isNumeric, numVals,
        allPairs, pairedRows, List.zip_cons_cons, List.zip_nil_right,
        List.filterMap_cons, List.filterMap_nil, pearsonRep, sxx, syy, sxy,
        meanQ, sumQ, List.sum_cons, List.sum_nil, strengthRep]
        norm_num)
    (by simp [detect_correlations, load_csv_safely, corrCexDisk, corrCexTable,
        Table.emptyDf, Table.nRows, colLen, validateNumericCols,
        validate_numeric_column, lookupCol, List.lookup, Col.isNumeric, numVals,
        allPairs, pairedRows, List.zip_cons_cons, List.zip_nil_right,
        List.filterMap_cons, List.filterMap_nil, pearsonRep, sxx, syy, sxy,
        meanQ, sumQ, List.sum_cons, List.sum_nil, strengthRep]
        norm_num)

/-! ## Claim C8: correlate is symmetric and enumerates each pair once -/

/-- Claim C8: correlate on [A, B] and on [B, A] reports the same coefficient
for the (swapped) pair; on a duplicate-free column list every entry pairs two
distinct columns and every unordered pair of distinct requested columns
appears exactly once. -/
theorem correlate_symmetric_pairs (disk : Disk) (f A B : String)
    (cols : List String) (t : Table) (p q r : CorrPayload)
    (hload : load_csv_safely disk f = .ok t)
    (hAB : detect_correlations disk f [A, B] = .ok p)
    (hBA : detect_correlations disk f [B, A] = .ok q)
    (hcols : detect_correlations disk f cols = .ok r)
    (hnd : cols.Nodup) :
    p.correlations.map CorrEntry.correlation =
      q.correlations.map CorrEntry.correlation ∧
    p.correlations.map (fun e => (e.column1, e.column2)) = [(A, B)] ∧
    q.correlations.map (fun e => (e.column1, e.column2)) = [(B, A)] ∧
    (∀ e ∈ r.correlations, e.column1 ≠ e.column2) ∧
    (∀ a b, a ∈ cols → b ∈ cols → a ≠ b →
      r.correlations.countP
        (fun e => decide ((e.column1 = a ∧ e.column2 = b) ∨
                          (e.column1 = b ∧ e.column2 = a))) = 1) := by
  have hpinv := detect_correlations_ok_inv disk f [A, B] t p hload hAB
  have hqinv := detect_correlations_ok_inv disk f [B, A] t q hload hBA
  have hrinv := detect_correlations_ok_inv disk f cols t r hload hcols
  have hswap : pearsonRep (pairedRows (numVals t B) (numVals t A)) =
      pearsonRep (pairedRows (numVals t A) (numVals t B)) := by
    rw [pairedRows_swap (numVals t A) (numVals t B), pearsonRep_swap]
  refine ⟨?_, ?_, ?_, ?_, ?_⟩
  · rw [hpinv, hqinv]
    simp [allPairs, hswap]
  · rw [hpinv]
    simp [allPairs]
  · rw [hqinv]
    simp [allPairs]
  · intro e he
    rw [hrinv] at he
    rcases List.mem_map.mp he with ⟨pr, hpr, hfn⟩
    have hne := allPairs_no_self hnd hpr
    rw [← hfn]
    exact hne
  · intro a b ha hb hab
    rw [hrinv, List.countP_map]
    rw [List.countP_congr (q := fun pr => decide (pr = (a, b) ∨ pr = (b, a)))
      (fun pr hpr => by
        simp only [Function.comp, decide_eq_true_eq, Prod.ext_iff])]
    exact allPairs_count_one hnd ha hb hab

/-- Witness for C8 on the two numeric demo columns. -/
theorem correlate_symmetric_pairs_witness :
    ([⟨"num", "lin", some (3, 28/3), "very strong"⟩] : List CorrEntry).map
        CorrEntry.correlation =
      ([⟨"lin", "num", some (3, 28/3), "very strong"⟩] : List CorrEntry).map
        CorrEntry.correlation ∧
    ([⟨"num", "lin", some (3, 28/3), "very strong"⟩] : List CorrEntry).map
        (fun e => (e.column1, e.column2)) = [("num", "lin")] ∧
    ([⟨"lin", "num", some (3, 28/3), "very strong"⟩] : List CorrEntry).map
        (fun e => (e.column1, e.column2)) = [("lin", "num")] ∧
    (∀ e ∈ ([⟨"num", "lin", some (3, 28/3), "very strong"⟩] : List CorrEntry),
      e.column1 ≠ e.column2) ∧
    (∀ a b, a ∈ ["num", "lin"] → b ∈ ["num", "lin"] → a ≠ b →
      ([⟨"num", "lin", some (3, 28/3), "very strong"⟩] : List CorrEntry).countP
        (fun e => decide ((e.column1 = a ∧ e.column2 = b) ∨
                          (e.column1 = b ∧ e.column2 = a))) = 1) :=
  correlate_symmetric_pairs demoDisk "demo.csv" "num" "lin" ["num", "lin"]
    demoTable
    ⟨"demo.csv", ["num", "lin"], [⟨"num", "lin", some (3, 28/3), "very strong"⟩]⟩
    ⟨"demo.csv", ["lin", "num"], [⟨"lin", "num", some (3, 28/3), "very strong"⟩]⟩
    ⟨"demo.csv", ["num", "lin"], [⟨"num", "lin", some (3, 28/3), "very strong"⟩]⟩
    (by simp [load_csv_safely, demoDisk, demoTable, Table.emptyDf, Table.nRows, colLen])
    (by simp [detect_correlations, load_csv_safely, demoDisk, demoTable,
        Table.emptyDf, Table.nRows, colLen, validateNumericCols,
        validate_numeric_column, lookupCol, List.lookup, Col.isNumeric, numVals,
        allPairs, pairedRows, List.zip_cons_cons, List.zip_nil_right,
        List.filterMap_cons, List.filterMap_nil, pearsonRep, sxx, syy, sxy,
        meanQ, sumQ, List.sum_cons, List.sum_nil, strengthRep]
        norm_num)
    (by simp [detect_correlations, load_csv_safely, demoDisk, demoTable,
        Table.emptyDf, Table.nRows, colLen, validateNumericCols,
        validate_numeric_column, lookupCol, List.lookup, Col.isNumeric, numVals,
        allPairs, pairedRows, List.zip_cons_cons, List.zip_nil_right,
        List.filterMap_cons, List.filterMap_nil, pearsonRep, sxx, syy, sxy,
        meanQ, sumQ, List.sum_cons, List.sum_nil, strengthRep]
        norm_num)
    (by simp [detect_correlations, load_csv_safely, demoDisk, demoTable,
        Table.emptyDf, Table.nRows, colLen, validateNumericCols,
        validate_numeric_column, lookupCol, List.lookup, Col.isNumeric, numVals,
        allPairs, pairedRows, List.zip_cons_cons, List.zip_nil_right,
        List.filterMap_cons, List.filterMap_nil, pearsonRep, sxx, syy, sxy,
        meanQ, sumQ, List.sum_cons, List.sum_nil, strengthRep]
        norm_num)
    (by simp)

/-! ## Claim C6: aggregation operation and dtype validation

The tools-variant behaves as the claim says; the CSVAgent variant
(agent.py), cited by the same claim, validates the numeric dtype of the
target column before dispatching on the operation, so `count` on a
non-numeric target returns an error there.  The counterexample shows the
violation, the theorem the amended claim. -/

/-- Counterexample to C6 as stated: in the CSVAgent variant, aggregation with
operation "count" on the existing non-numeric target column "txt" returns an
error instead of counting group sizes. -/
theorem agent_aggregation_count_nonnumeric_cex :
    agent_perform_data_aggregation demoDisk "demo.csv" "num" "count" "txt" =
      .error "Target column 'txt' is not numeric" := by
  simp [agent_perform_data_aggregation, load_csv_safely, demoDisk, demoTable,
    Table.emptyDf, Table.nRows, colLen, lookupCol, List.lookup, Col.isNumeric]

/-- Claim C6, amended: with existing group and target columns and a
non-numeric target, the tools variant rejects unsupported operation names,
succeeds for `count` (group sizes need no numeric target), and rejects every
other listed operation on the non-numeric target; the CSVAgent variant
rejects a non-numeric target for every operation, `count` included. -/
theorem aggregation_operation_validation (disk : Disk) (f g tc : String)
    (t : Table) (gcol : Col) (ws : List (Option String))
    (hload : load_csv_safely disk f = .ok t)
    (hg : lookupCol t g = some gcol)
    (htc : lookupCol t tc = some (Col.text ws)) :
    (∀ op, ¬(op = "sum" ∨ op = "mean" ∨ op = "count" ∨ op = "min" ∨ op = "max" ∨
        op = "median") → isErr (perform_data_aggregation disk f g op tc)) ∧
    ¬ isErr (perform_data_aggregation disk f g "count" tc) ∧
    (∀ op, op = "sum" ∨ op = "mean" ∨ op = "min" ∨ op = "max" ∨ op = "median" →
      isErr (perform_data_aggregation disk f g op tc)) ∧
    (∀ op, isErr (agent_perform_data_aggregation disk f g op tc)) := by
  refine ⟨?_, ?_, ?_, ?_⟩
  · intro op hop
    unfold perform_data_aggregation
    rw [hload]
    simp [validate_column_exists, hg, htc, hop, isErr]
  · unfold perform_data_aggregation
    rw [hload]
    simp [validate_column_exists, hg, htc, isErr]
  · intro op hop
    rcases hop with rfl | rfl | rfl | rfl | rfl <;>
      (unfold perform_data_aggregation
       rw [hload]
       simp [validate_column_exists, validate_numeric_column, hg, htc,
         Col.isNumeric, isErr])
  · intro op
    unfold agent_perform_data_aggregation
    rw [hload]
    simp [hg, htc, Col.isNumeric, isErr]

/-- Witness for the amended C6 at the demo table, grouping by "num" with the
text target column "txt". -/
theorem aggregation_operation_validation_witness :
    (∀ op, ¬(op = "sum" ∨ op = "mean" ∨ op = "count" ∨ op = "min" ∨ op = "max" ∨
        op = "median") →
      isErr (perform_data_aggregation demoDisk "demo.csv" "num" op "txt")) ∧
    ¬ isErr (perform_data_aggregation demoDisk "demo.csv" "num" "count" "txt") ∧
    (∀ op, op = "sum" ∨ op = "mean" ∨ op = "min" ∨ op = "max" ∨ op = "median" →
      isErr (perform_data_aggregation demoDisk "demo.csv" "num" op "txt")) ∧
    (∀ op, isErr (agent_perform_data_aggregation demoDisk "demo.csv" "num" op "txt")) :=
  aggregation_operation_validation demoDisk "demo.csv" "num" "txt" demoTable
    (Col.numeric [some 1, some 2, some 4, none])
    [some "a", some "b", some "a", some "b"]
    (by simp [load_csv_safely, demoDisk, demoTable, Table.emptyDf, Table.nRows, colLen])
    (by simp [lookupCol, demoTable, List.lookup])
    (by simp [lookupCol, demoTable, List.lookup])

/-! ## Claim C7: every enumerated failure is a tagged error value

In the embedding every tool is a total function into an `Except`; the claim
content is that each enumerated bad input lands in the error variant (the
Python dict with the "error" key), for every tool reachable by it. -/

theorem validateNumericCols_err_of_mem {t : Table} {cols : List String} {c : String}
    (hc : c ∈ cols) (hbad : ∀ u : Unit, validate_numeric_column t c ≠ .ok u) :
    ∃ e, validateNumericCols t cols = .error e := by
  induction cols with
  | nil => simp at hc
  | cons x xs ih =>
    cases hv : validate_numeric_column t x with
    | error e => exact ⟨e, by simp [validateNumericCols, hv]⟩
    | ok u =>
      rcases List.mem_cons.mp hc with rfl | hcxs
      · exact absurd hv (hbad u)
      · rcases ih hcxs with ⟨e, he⟩
        exact ⟨e, by simp [validateNumericCols, hv, he]⟩

/-- Claim C7: for each enumerated failure (dataset missing, dataset empty at
parse time or after parsing, malformed CSV, column missing, column
non-numeric, unsupported method or operation, fewer than two correlation
columns), each Statistics Engine tool reachable by that input returns a
tagged error value rather than raising. -/
theorem tools_return_tagged_errors (disk : Disk) (f c m op g : String)
    (cols : List String) :
    (disk f = .missing →
      isErr (calculate_column_statistics disk f c) ∧
      isErr (find_outliers disk f c m) ∧
      isErr (detect_correlations disk f cols) ∧
      isErr (perform_data_aggregation disk f g op c) ∧
      isErr (count_rows_with_value disk f c (SearchVal.num 0))) ∧
    (disk f = .emptyFile →
      isErr (calculate_column_statistics disk f c) ∧
      isErr (find_outliers disk f c m) ∧
      isErr (detect_correlations disk f cols) ∧
      isErr (perform_data_aggregation disk f g op c) ∧
      isErr (count_rows_with_value disk f c (SearchVal.num 0))) ∧
    (disk f = .malformed →
      isErr (calculate_column_statistics disk f c) ∧
      isErr (find_outliers disk f c m) ∧
      isErr (detect_correlations disk f cols) ∧
      isErr (perform_data_aggregation disk f g op c) ∧
      isErr (count_rows_with_value disk f c (SearchVal.num 0))) ∧
    (∀ t, disk f = .parsed t → t.emptyDf = true →
      isErr (calculate_column_statistics disk f c) ∧
      isErr (find_outliers disk f c m) ∧
      isErr (detect_correlations disk f cols) ∧
      isErr (perform_data_aggregation disk f g op c) ∧
      isErr (count_rows_with_value disk f c (SearchVal.num 0))) ∧
    (∀ t, disk f = .parsed t → lookupCol t c = none →
      isErr (calculate_column_statistics disk f c) ∧
      isErr (find_outliers disk f c m) ∧
      (c ∈ cols → isErr (detect_correlations disk f cols)) ∧
      isErr (count_rows_with_value disk f c (SearchVal.num 0))) ∧
    (∀ t ws, disk f = .parsed t → lookupCol t c = some (Col.text ws) →
      isErr (calculate_column_statistics disk f c) ∧
      isErr (find_outliers disk f c m) ∧
      (c ∈ cols → isErr (detect_correlations disk f cols))) ∧
    (¬(m = "iqr" ∨ m = "zscore") → isErr (find_outliers disk f c m)) ∧
    (¬(op = "sum" ∨ op = "mean" ∨ op = "count" ∨ op = "min" ∨ op = "max" ∨
        op = "median") → isErr (perform_data_aggregation disk f g op c)) ∧
    (cols.length < 2 → isErr (detect_correlations disk f cols)) := by
  refine ⟨?_, ?_, ?_, ?_, ?_, ?_, ?_, ?_, ?_⟩
  · intro hd
    refine ⟨?_, ?_, ?_, ?_, ?_⟩ <;>
      simp [calculate_column_statistics, find_outliers, detect_correlations,
        perform_data_aggregation, count_rows_with_value, load_csv_safely, hd, isErr]
  · intro hd
    refine ⟨?_, ?_, ?_, ?_, ?_⟩ <;>
      simp [calculate_column_statistics, find_outliers, detect_correlations,
        perform_data_aggregation, count_rows_with_value, load_csv_safely, hd, isErr]
  · intro hd
    refine ⟨?_, ?_, ?_, ?_, ?_⟩ <;>
      simp [calculate_column_statistics, find_outliers, detect_correlations,
        perform_data_aggregation, count_rows_with_value, load_csv_safely, hd, isErr]
  · intro t hd hemp
    refine ⟨?_, ?_, ?_, ?_, ?_⟩ <;>
      simp [calculate_column_statistics, find_outliers, detect_correlations,
        perform_data_aggregation, count_rows_with_value, load_csv_safely, hd,
        hemp, isErr]
  · intro t hd hnone
    have hld : load_csv_safely disk f = .ok t ∨ isErr (load_csv_safely disk f) := by
      unfold load_csv_safely
      rw [hd]
      by_cases hemp : t.emptyDf
      · right
        simp [hemp, isErr]
      · left
        simp [hemp]
    have hv : validate_numeric_column t c = .error ("Column '" ++ c ++ "' not found") := by
      simp [validate_numeric_column, hnone]
    have hvx : validate_column_exists t c = .error ("Column '" ++ c ++ "' not found") := by
      simp [validate_column_exists, hnone]
    rcases hld with hok | hbadload
    · refine ⟨?_, ?_, ?_, ?_⟩
      · simp [calculate_column_statistics, hok, hv, isErr]
      · simp [find_outliers, hok, hv, isErr]
      · intro hccols
        rcases validateNumericCols_err_of_mem hccols
          (fun u hu => by rw [hv] at hu; exact absurd hu (by simp)) with ⟨e, he⟩
        simp [detect_correlations, hok, he, isErr]
      · simp [count_rows_with_value, hok, hvx, isErr]
    · cases hbe : load_csv_safely disk f with
      | ok t2 => rw [hbe] at hbadload; exact absurd hbadload (by simp [isErr])
      | error e =>
        refine ⟨?_, ?_, fun _ => ?_, ?_⟩ <;>
          simp [calculate_column_statistics, find_outliers, detect_correlations,
            count_rows_with_value, hbe, isErr]
  · intro t ws hd htext
    have hld : load_csv_safely disk f = .ok t ∨ isErr (load_csv_safely disk f) := by
      unfold load_csv_safely
      rw [hd]
      by_cases hemp : t.emptyDf
      · right
        simp [hemp, isErr]
      · left
        simp [hemp]
    have hv : validate_numeric_column t c =
        .error ("Column '" ++ c ++ "' is not numeric") := by
      simp [validate_numeric_column, htext, Col.isNumeric]
    rcases hld with hok | hbadload
    · refine ⟨?_, ?_, ?_⟩
      · simp [calculate_column_statistics, hok, hv, isErr]
      · simp [find_outliers, hok, hv, isErr]
      · intro hccols
        rcases validateNumericCols_err_of_mem hccols
          (fun u hu => by rw [hv] at hu; exact absurd hu (by simp)) with ⟨e, he⟩
        simp [detect_correlations, hok, he, isErr]
    · cases hbe : load_csv_safely disk f with
      | ok t2 => rw [hbe] at hbadload; exact absurd hbadload (by simp [isErr])
      | error e =>
        refine ⟨?_, ?_, fun _ => ?_⟩ <;>
          simp [calculate_column_statistics, find_outliers, detect_correlations,
            hbe, isErr]
  · intro hm
    cases hld : load_csv_safely disk f with
    | error e => simp [find_outliers, hld, isErr]
    | ok t =>
      cases hv : validate_numeric_column t c with
      | error e => simp [find_outliers, hld, hv, isErr]
      | ok u =>
        cases u
        simp [find_outliers, hld, hv, hm, isErr]
  · intro hop
    cases hld : load_csv_safely disk f with
    | error e => simp [perform_data_aggregation, hld, isErr]
    | ok t =>
      cases hv1 : validate_column_exists t g with
      | error e => simp [perform_data_aggregation, hld, hv1, isErr]
      | ok u =>
        cases u
        cases hv2 : validate_column_exists t c with
        | error e => simp [perform_data_aggregation, hld, hv1, hv2, isErr]
        | ok u2 =>
          cases u2
          simp [perform_data_aggregation, hld, hv1, hv2, hop, isErr]
  · intro hlen
    cases hld : load_csv_safely disk f with
    | error e => simp [detect_correlations, hld, isErr]
    | ok t =>
      cases hv : validateNumericCols t cols with
      | error e => simp [detect_correlations, hld, hv, isErr]
      | ok u =>
        cases u
        simp [detect_correlations, hld, hv, hlen, isErr]

/-- Witness for C7: the missing dataset `nope.csv` makes the statistics tool
return a tagged error. -/
theorem tools_return_tagged_errors_witness :
    isErr (calculate_column_statistics demoDisk "nope.csv" "num") :=
  ((tools_return_tagged_errors demoDisk "nope.csv" "num" "iqr" "sum" "g"
    ["a", "b"]).1 (by simp [demoDisk])).1

end CsvSpec
